import Mathlib

/-!
Verification development for `conda_package_gatherer.py`, the single module of
the Offline_Conda_Update_Packager repository. The Python source is shallowly
embedded below: pure fragments become Lean functions, and the effectful
pipeline `generate_offline_install_package` becomes a function producing an
explicit event trace plus an optional fatal error. External collaborators
(the conda solver, the HTTP transport, the pip subprocess) are parameters of a
`World` record, as the repository consumes them only through their results.
-/

set_option autoImplicit false

namespace CondaPackageGatherer

/-- One entry of a YAML environment descriptor's `dependencies` list: either a
bare specifier string, or a mapping (a Python dict, embedded as an association
list from keys to specifier lists, e.g. the `pip:` mapping). -/
inductive DepEntry where
  | spec (s : String)
  | map (m : List (String × List String))
deriving DecidableEq, Repr

/-- Python `d.get(k)` on a dict embedded as an association list: the value at
the first matching key, if any. -/
def dictLookup (m : List (String × List String)) (k : String) : Option (List String) :=
  match m with
  | [] => none
  | kv :: rest => if kv.1 == k then some kv.2 else dictLookup rest k

/-- Python `d.pop(k)` (the mutation's effect on the remaining dict): all
bindings except key `k`. On dicts with unique keys this removes exactly the
one binding, as `pop` does. -/
def eraseKey (m : List (String × List String)) (k : String) : List (String × List String) :=
  m.filter (fun kv => kv.1 != k)

/-- Python `==` on two embedded dicts: equal key sets with equal values,
insertion order ignored. -/
def dictEq (a b : List (String × List String)) : Bool :=
  a.all (fun kv => dictLookup b kv.1 == some kv.2) &&
  b.all (fun kv => dictLookup a kv.1 == some kv.2)

/-- Python `==` between two dependency-list entries: string equality on
specifiers, dict equality on mappings, `False` across kinds. -/
def entryEq : DepEntry → DepEntry → Bool
  | .spec s, .spec t => s == t
  | .map a, .map b => dictEq a b
  | _, _ => false

/-- Python `packages.remove(x)` (line 95): delete the first element comparing
equal to `x`. In the normalizer `x` is always present, so the not-found
`ValueError` branch is unreachable and omitted. -/
def removeFirst (x : DepEntry) : List DepEntry → List DepEntry
  | [] => []
  | e :: es => if entryEq e x then es else e :: removeFirst x es

/-- The loop condition of line 93: `isinstance(p, dict) and p.get('pip') is
not None`. -/
def isPipMap : DepEntry → Bool
  | .map m => (dictLookup m "pip").isSome
  | .spec _ => false

/-- The test of line 93 at one entry: a mapping with a `pip` key yields its
popped form (`p` after `p.pop('pip')`) and the extracted pip list. -/
def pipHit : DepEntry → Option (List (String × List String) × List String)
  | .map m =>
      match dictLookup m "pip" with
      | some pl => some (eraseKey m "pip", pl)
      | none => none
  | .spec _ => none

/-- The reverse scan of lines 92-96: walking the dependency list from the end,
find the first mapping with a `pip` key; return the list with that mapping
replaced by its popped form (the in-place `p.pop('pip')`), the popped form
itself, and the extracted pip list. `e :: es` prefers a hit in `es`, which is
exactly `reversed(packages)` order. -/
def normCore : List DepEntry → Option (List DepEntry × List (String × List String) × List String)
  | [] => none
  | e :: es =>
      ((normCore es).map (fun r => (e :: r.1, r.2))).orElse
        (fun _ => (pipHit e).map (fun hit => (DepEntry.map hit.1 :: es, hit)))

/-- The Input Normalizer for the file-path branch (lines 90-97): extract the
pip list from the last mapping carrying a `pip` key (if any), then
`packages.remove(p)` on the mutated list; the remainder is the conda list. -/
def normalizeDescriptor (deps : List DepEntry) : List DepEntry × Option (List String) :=
  match normCore deps with
  | none => (deps, none)
  | some (deps2, red, pl) => (removeFirst (DepEntry.map red) deps2, some pl)

/-- A JSON value from `conda info --json`, restricted to the shapes the
`active_prefix` field takes: JSON `null` (Python `None` after `json.loads`) or
a string. -/
inductive JVal where
  | jnull
  | jstr (s : String)
deriving DecidableEq, Repr

/-- Line 62 of `solve_for_packages`: `info['conda_prefix'] if
info['active_prefix'] == 'null' else info['active_prefix']`. Python compares
the decoded JSON value against the literal string `'null'`. -/
def selectEnvDir (active : JVal) (base : JVal) : JVal :=
  if active = JVal.jstr "null" then base else active

/-- One package on the "to add" side of the solver diff, exposing the two
fields the pipeline reads: `pkg.url` and `pkg.fn`. -/
structure ResolvedPkg where
  url : String
  fn : String
deriving DecidableEq, Repr

/-- Python dict insertion `d[k] = v`: update in place if the key exists
(keeping its position), else append the binding. -/
def pyDictInsert (d : List (String × String)) (k v : String) : List (String × String) :=
  if (d.map Prod.fst).contains k then
    d.map (fun kv => if kv.1 == k then (k, v) else kv)
  else d ++ [(k, v)]

/-- Line 108: `packages_to_fetch = {pkg.url: pkg.fn for pkg in
to_be_installed.item_list}`, a dict comprehension built by successive
insertion. -/
def buildFetchMap (pkgs : List ResolvedPkg) : List (String × String) :=
  pkgs.foldl (fun d p => pyDictInsert d p.url p.fn) []

/-- Line 109: `conda_package_listing = [f'conda/{v}' for v in
packages_to_fetch.values()]`. -/
def condaPackageListing (pkgs : List ResolvedPkg) : List String :=
  (buildFetchMap pkgs).map (fun kv => "conda/" ++ kv.2)

/-- Lines 117-119: the loop `for p in pip_dependencies: rq.write(p)` writes
the bare concatenation of the specifiers — no separator of any kind. -/
def requirementsContent (pip_dependencies : List String) : String :=
  String.join pip_dependencies

/-- Lines 136-137: the conda block of the replay script. `" ".join` of the
recorded listing sits between `conda install ` and ` --offline`. -/
def condaSection (comment_mark command_prepend : String) (listing : List String) : String :=
  comment_mark ++ " install conda packages\n" ++
    command_prepend ++ "conda install " ++ String.intercalate " " listing ++ " --offline\n"

/-- Lines 139-140: the pip block of the replay script. -/
def pipSection (comment_mark command_prepend : String) : String :=
  comment_mark ++ " install pip packages\n" ++
    command_prepend ++ "pip install --no-index --find-links=pip/downloaded -r pip/requirements.txt\n"

/-- Lines 120-140: the full text written to the replay script, as a function
of the platform test `os.name == 'nt'`, the optional preamble, the recorded
conda listing (`None` when the conda phase was skipped) and the pip
dependency list (the script guard is `is not None`, line 138). -/
def scriptContent (isWindows : Bool) (script_preamble : Option String)
    (conda_package_listing : Option (List String))
    (pip_dependencies : Option (List String)) : String :=
  let comment_mark := if isWindows then "::" else "#"
  let file_mark := if isWindows then "" else "#!/bin/bash\n"
  let command_prepend := if isWindows then "call " else ""
  file_mark ++
    (match script_preamble with
     | some s => s ++ "\n"
     | none => "") ++
    (match conda_package_listing with
     | some l => condaSection comment_mark command_prepend l
     | none => "") ++
    (match pip_dependencies with
     | some _ => pipSection comment_mark command_prepend
     | none => "")

/-- An observable effect of one pipeline run, in program order. Constructors
are tagged by the call site that produces them, so that events at distinct
sites stay distinguishable whatever the path strings are. -/
inductive Ev where
  | mkdirs (path : String)
  | solverRun (specs : List DepEntry)
  | fetchSave (path : String) (content : String)
  | fetchFail (url : String) (msg : String)
  | pipRun (specs : List String)
  | reqWrite (content : String)
  | scriptWrite (path : String) (content : String)
  | archive (path : String)
deriving DecidableEq, Repr

/-- The external collaborators, given by their observable results: the solver
diff's "to add" side, the HTTP transport (body or raised error per URL), and
the pip download subprocess (exit status as `Except`). -/
structure World where
  solver : List DepEntry → List ResolvedPkg
  net : String → Except String String
  pipDl : List String → Except String Unit

/-- Lines 19-35, `download_and_save_package`: a successful `requests.get`
writes the body to `download_directory/package_name`; a raised network error
is confined to the worker (its future), producing no file. -/
def download_and_save_package (net : String → Except String String)
    (url : String) (package_name : String) (download_directory : String) : List Ev :=
  match net url with
  | .ok body => [Ev.fetchSave (download_directory ++ "/" ++ package_name) body]
  | .error e => [Ev.fetchFail url e]

/-- Lines 38-49, `fetch_packages`: every entry of the dict is submitted to the
pool and runs to completion; the `with` block is a barrier. The futures
returned by `submit` are discarded, so a worker's exception is never re-raised
— the call always returns normally. Workers are modelled in submission order;
no claim depends on interleaving. -/
def fetch_packages (net : String → Except String String)
    (urls : List (String × String)) (download_directory : String) : List Ev :=
  match urls with
  | [] => []
  | up :: rest =>
      download_and_save_package net up.1 up.2 download_directory ++
        fetch_packages net rest download_directory

/-- The `packages` argument of `generate_offline_install_package`: either the
raw mapping with optional `conda`/`pip` keys, or a path to a descriptor file,
embedded as the already-parsed `dependencies` list (file reading and YAML
parsing are external). -/
inductive PkgInput where
  | dict (conda : Option (List String)) (pip : Option (List String))
  | yamlFile (deps : List DepEntry)

/-- Lines 86-100: the normalized `(conda_dependencies, pip_dependencies)`
pair. For the file branch the conda side is always a list (never `None`);
for the dict branch both come from `.get`. Dict-branch conda strings are
wrapped as bare specifier entries for the solver call. -/
def normalizeInput (packages : PkgInput) : Option (List DepEntry) × Option (List String) :=
  match packages with
  | .yamlFile deps =>
      let nd := normalizeDescriptor deps
      (some nd.1, nd.2)
  | .dict c p => (c.map (fun l => l.map DepEntry.spec), p)

/-- The outcome of one pipeline run: its event trace and the fatal error, if
one was raised. -/
structure RunResult where
  events : List Ev
  err : Option String
deriving DecidableEq, Repr

/-- Lines 103-111: the conda phase, run when `conda_dependencies is not None`
(line 104): create `conda/`, invoke the solver, fetch the mapped artifacts,
and record the `conda/<fn>` listing for the script. -/
def condaPhaseRun (w : World) (conda_dependencies : Option (List DepEntry))
    (install_path : String) : List Ev × Option (List String) :=
  match conda_dependencies with
  | none => ([], none)
  | some deps =>
      let conda_packages_location := install_path ++ "/conda"
      let to_be_installed := w.solver deps
      ([Ev.mkdirs conda_packages_location, Ev.solverRun deps] ++
         fetch_packages w.net (buildFetchMap to_be_installed) conda_packages_location,
       some (condaPackageListing to_be_installed))

/-- Lines 112-119: the pip phase, run when `pip_dependencies` is truthy (line
112): create `pip/`, run the pip download subprocess, and on a zero exit write
`requirements.txt`; a non-zero exit raises out of `check_call` before the
requirements write. -/
def pipPhaseRun (w : World) (pip_dependencies : Option (List String))
    (install_path : String) : List Ev × Option String :=
  match pip_dependencies with
  | some ps =>
      if ps.isEmpty then ([], none)
      else
        let pip_packages_location := install_path ++ "/pip"
        match w.pipDl ps with
        | .error e => ([Ev.mkdirs pip_packages_location, Ev.pipRun ps], some e)
        | .ok _ =>
            ([Ev.mkdirs pip_packages_location, Ev.pipRun ps,
              Ev.reqWrite (requirementsContent ps)], none)
  | none => ([], none)

/-- Lines 67-142, `generate_offline_install_package`: normalize input, create
the install directory, run the conda phase, run the pip phase (aborting on a
non-zero pip exit), then write the replay script and optionally archive.
`exist_ok` is threaded through but directory creation itself is outside the
claims (filesystem conflicts are not modelled). -/
def generate_offline_install_package (w : World) (packages : PkgInput)
    (package_location : String) (install_package_name : String)
    (compress : Bool) (exist_ok : Bool) (script_preamble : Option String)
    (isWindows : Bool) : RunResult :=
  let _ := exist_ok
  let norm := normalizeInput packages
  let install_path := package_location ++ "/" ++ install_package_name
  let cph := condaPhaseRun w norm.1 install_path
  let pph := pipPhaseRun w norm.2 install_path
  let ev2 := [Ev.mkdirs install_path] ++ cph.1 ++ pph.1
  match pph.2 with
  | some e => { events := ev2, err := some e }
  | none =>
      let update_file := if isWindows then "update.bat" else "update.sh"
      let content := scriptContent isWindows script_preamble cph.2 norm.2
      let ev3 := ev2 ++ [Ev.scriptWrite (install_path ++ "/" ++ update_file) content]
      let ev4 := if compress then ev3 ++ [Ev.archive install_path] else ev3
      { events := ev4, err := none }

/-- Event classifier for the temporal claim: writes of the replay script. -/
def isScriptEv : Ev → Bool
  | .scriptWrite _ _ => true
  | _ => false

/-- Event classifier for the temporal claim: artifact-phase events — a conda
download finishing (with or without success) or the pip download step. -/
def isArtifactEv : Ev → Bool
  | .fetchSave _ _ => true
  | .fetchFail _ _ => true
  | .pipRun _ => true
  | _ => false

/-- A concrete world for the download-failure scenario: the solver resolves
three packages, the transport fails on the second URL, pip succeeds. -/
def wNetFail : World where
  solver := fun _ => [⟨"u1", "f1"⟩, ⟨"u2", "f2"⟩, ⟨"u3", "f3"⟩]
  net := fun u => if u == "u2" then .error "connection reset" else .ok ("data-" ++ u)
  pipDl := fun _ => .ok ()

/-- A concrete world where the solver resolves nothing and every external call
succeeds. -/
def wQuiet : World where
  solver := fun _ => []
  net := fun _ => .ok ""
  pipDl := fun _ => .ok ()

/-- A concrete world whose pip download subprocess exits non-zero. -/
def wPipFail : World where
  solver := fun _ => [⟨"u1", "f1"⟩]
  net := fun _ => .ok "data"
  pipDl := fun _ => .error "exit status 1"

/-- The run of the download-failure scenario: one conda specifier, no pip
list, defaults otherwise, built on a non-Windows host. -/
def runNetFail : RunResult :=
  generate_offline_install_package wNetFail (PkgInput.dict (some ["numpy"]) none)
    "loc" "package" false true none false

/-- The run with an empty (but present) conda list and no pip list. -/
def runEmptyConda : RunResult :=
  generate_offline_install_package wQuiet (PkgInput.dict (some []) none)
    "loc" "package" false true none false

/-- The run with a present-but-empty pip list. -/
def runEmptyPip : RunResult :=
  generate_offline_install_package wQuiet (PkgInput.dict (some ["numpy"]) (some []))
    "loc" "package" false true none false

/-- The run with conda and pip lists both non-empty, used for the ordering
claim. -/
def runBothPhases : RunResult :=
  generate_offline_install_package wNetFail (PkgInput.dict (some ["numpy"]) (some ["flask"]))
    "loc" "package" false true none false

/-- A concrete resolved package set with distinct URLs. -/
def pkgsPair : List ResolvedPkg := [⟨"u1", "f1"⟩, ⟨"u2", "f2"⟩]

/-! ## Theorems -/

/-! Helper lemmas about the shapes of phase traces. -/

theorem fetch_packages_shape {net : String → Except String String}
    {urls : List (String × String)} {d : String} {ev : Ev}
    (h : ev ∈ fetch_packages net urls d) :
    (∃ p c, ev = Ev.fetchSave p c) ∨ ∃ u m, ev = Ev.fetchFail u m := by
  induction urls with
  | nil => simp [fetch_packages] at h
  | cons up rest ih =>
      simp only [fetch_packages] at h
      rcases List.mem_append.mp h with h1 | h2
      · rcases hnet : net up.1 with e | body <;>
          simp only [download_and_save_package, hnet, List.mem_singleton] at h1
        · exact Or.inr ⟨up.1, e, h1⟩
        · exact Or.inl ⟨d ++ "/" ++ up.2, body, h1⟩
      · exact ih h2

theorem fetchSave_mem_fetch_packages {net : String → Except String String}
    {urls : List (String × String)} {d u f body : String}
    (hmem : (u, f) ∈ urls) (hok : net u = Except.ok body) :
    Ev.fetchSave (d ++ "/" ++ f) body ∈ fetch_packages net urls d := by
  induction urls with
  | nil => cases hmem
  | cons up rest ih =>
      simp only [fetch_packages]
      rcases List.mem_cons.mp hmem with heq | htl
      · rw [← heq]
        simp [download_and_save_package, hok]
      · exact List.mem_append_right _ (ih htl)

theorem condaPhase_event_shape {w : World} {cd : Option (List DepEntry)}
    {ip : String} {ev : Ev} (h : ev ∈ (condaPhaseRun w cd ip).1) :
    ev = Ev.mkdirs (ip ++ "/conda") ∨ (∃ ds, ev = Ev.solverRun ds) ∨
      (∃ p c, ev = Ev.fetchSave p c) ∨ ∃ u m, ev = Ev.fetchFail u m := by
  cases cd with
  | none => simp [condaPhaseRun] at h
  | some deps =>
      simp only [condaPhaseRun] at h
      rcases List.mem_append.mp h with h1 | h2
      · rcases List.mem_cons.mp h1 with h1 | h1
        · exact Or.inl h1
        · rcases List.mem_cons.mp h1 with h1 | h1
          · exact Or.inr (Or.inl ⟨deps, h1⟩)
          · cases h1
      · rcases fetch_packages_shape h2 with hs | hf
        · exact Or.inr (Or.inr (Or.inl hs))
        · exact Or.inr (Or.inr (Or.inr hf))

theorem pipPhase_event_shape {w : World} {pd : Option (List String)}
    {ip : String} {ev : Ev} (h : ev ∈ (pipPhaseRun w pd ip).1) :
    ev = Ev.mkdirs (ip ++ "/pip") ∨ (∃ ps, ev = Ev.pipRun ps) ∨
      ∃ s, ev = Ev.reqWrite s := by
  cases pd with
  | none => simp [pipPhaseRun] at h
  | some ps =>
      by_cases hps : ps.isEmpty
      · simp [pipPhaseRun, hps] at h
      · rcases hdl : w.pipDl ps with e | u <;>
          simp only [pipPhaseRun, hps, hdl, Bool.false_eq_true, if_false,
            List.mem_cons, List.mem_singleton, List.not_mem_nil, or_false] at h
        · rcases h with h | h
          · exact Or.inl h
          · exact Or.inr (Or.inl ⟨ps, h⟩)
        · rcases h with h | h | h
          · exact Or.inl h
          · exact Or.inr (Or.inl ⟨ps, h⟩)
          · exact Or.inr (Or.inr ⟨requirementsContent ps, h⟩)

theorem condaPhase_no_reqWrite {w : World} {cd : Option (List DepEntry)}
    {ip s : String} : Ev.reqWrite s ∉ (condaPhaseRun w cd ip).1 := by
  intro h
  rcases condaPhase_event_shape h with h | ⟨ds, h⟩ | ⟨p, c, h⟩ | ⟨u, m, h⟩ <;>
    exact Ev.noConfusion h

theorem condaPhase_no_scriptWrite {w : World} {cd : Option (List DepEntry)}
    {ip q s : String} : Ev.scriptWrite q s ∉ (condaPhaseRun w cd ip).1 := by
  intro h
  rcases condaPhase_event_shape h with h | ⟨ds, h⟩ | ⟨p, c, h⟩ | ⟨u, m, h⟩ <;>
    exact Ev.noConfusion h

theorem condaPhase_no_pipRun {w : World} {cd : Option (List DepEntry)}
    {ip : String} {ps : List String} : Ev.pipRun ps ∉ (condaPhaseRun w cd ip).1 := by
  intro h
  rcases condaPhase_event_shape h with h | ⟨ds, h⟩ | ⟨p, c, h⟩ | ⟨u, m, h⟩ <;>
    exact Ev.noConfusion h

theorem condaPhase_mkdirs_eq {w : World} {cd : Option (List DepEntry)}
    {ip q : String} (h : Ev.mkdirs q ∈ (condaPhaseRun w cd ip).1) :
    q = ip ++ "/conda" := by
  rcases condaPhase_event_shape h with h | ⟨ds, h⟩ | ⟨p, c, h⟩ | ⟨u, m, h⟩
  · exact (Ev.mkdirs.injEq .. ▸ h)
  all_goals exact Ev.noConfusion h

theorem pipPhase_no_scriptWrite {w : World} {pd : Option (List String)}
    {ip q s : String} : Ev.scriptWrite q s ∉ (pipPhaseRun w pd ip).1 := by
  intro h
  rcases pipPhase_event_shape h with h | ⟨ps, h⟩ | ⟨s2, h⟩ <;> exact Ev.noConfusion h

theorem pipPhase_no_solverRun {w : World} {pd : Option (List String)}
    {ip : String} {ds : List DepEntry} : Ev.solverRun ds ∉ (pipPhaseRun w pd ip).1 := by
  intro h
  rcases pipPhase_event_shape h with h | ⟨ps, h⟩ | ⟨s2, h⟩ <;> exact Ev.noConfusion h

theorem pipPhase_no_fetchSave {w : World} {pd : Option (List String)}
    {ip p c : String} : Ev.fetchSave p c ∉ (pipPhaseRun w pd ip).1 := by
  intro h
  rcases pipPhase_event_shape h with h | ⟨ps, h⟩ | ⟨s2, h⟩ <;> exact Ev.noConfusion h

theorem pipPhase_mkdirs_eq {w : World} {pd : Option (List String)}
    {ip q : String} (h : Ev.mkdirs q ∈ (pipPhaseRun w pd ip).1) :
    q = ip ++ "/pip" := by
  rcases pipPhase_event_shape h with h | ⟨ps, h⟩ | ⟨s2, h⟩
  · exact (Ev.mkdirs.injEq .. ▸ h)
  all_goals exact Ev.noConfusion h

theorem pipPhase_no_pipRun_of_nil {w : World} {ip : String} {ps : List String} :
    Ev.pipRun ps ∉ (pipPhaseRun w (some []) ip).1 := by
  intro h
  simp [pipPhaseRun] at h

theorem condaPhase_not_script {w : World} {cd : Option (List DepEntry)} {ip : String} :
    ∀ e ∈ (condaPhaseRun w cd ip).1, isScriptEv e = false := by
  intro e he
  rcases condaPhase_event_shape he with h | ⟨ds, h⟩ | ⟨p, c, h⟩ | ⟨u, m, h⟩ <;>
    subst h <;> rfl

theorem pipPhase_not_script {w : World} {pd : Option (List String)} {ip : String} :
    ∀ e ∈ (pipPhaseRun w pd ip).1, isScriptEv e = false := by
  intro e he
  rcases pipPhase_event_shape he with h | ⟨ps, h⟩ | ⟨s2, h⟩ <;> subst h <;> rfl

/-- The overall trace of one run is the install-directory creation, the conda
phase, and the pip phase, followed by a (possibly empty) tail holding only the
script write and the optional archive step. -/
theorem generate_structure (w : World) (packages : PkgInput) (pl n : String)
    (cp eo : Bool) (pre : Option String) (win : Bool) :
    ∃ tail : List Ev,
      (generate_offline_install_package w packages pl n cp eo pre win).events =
        [Ev.mkdirs (pl ++ "/" ++ n)] ++
          (condaPhaseRun w (normalizeInput packages).1 (pl ++ "/" ++ n)).1 ++
          (pipPhaseRun w (normalizeInput packages).2 (pl ++ "/" ++ n)).1 ++ tail ∧
      ∀ e ∈ tail,
        e = Ev.scriptWrite
              (pl ++ "/" ++ n ++ "/" ++ (if win then "update.bat" else "update.sh"))
              (scriptContent win pre
                (condaPhaseRun w (normalizeInput packages).1 (pl ++ "/" ++ n)).2
                (normalizeInput packages).2) ∨
          e = Ev.archive (pl ++ "/" ++ n) := by
  simp only [generate_offline_install_package]
  rcases h2 : (pipPhaseRun w (normalizeInput packages).2 (pl ++ "/" ++ n)).2 with _ | e
  · simp only [h2]
    cases cp
    · refine ⟨[Ev.scriptWrite
          (pl ++ "/" ++ n ++ "/" ++ (if win then "update.bat" else "update.sh"))
          (scriptContent win pre
            (condaPhaseRun w (normalizeInput packages).1 (pl ++ "/" ++ n)).2
            (normalizeInput packages).2)], ?_, ?_⟩
      · simp
      · intro e he
        simp at he
        exact Or.inl he
    · refine ⟨[Ev.scriptWrite
          (pl ++ "/" ++ n ++ "/" ++ (if win then "update.bat" else "update.sh"))
          (scriptContent win pre
            (condaPhaseRun w (normalizeInput packages).1 (pl ++ "/" ++ n)).2
            (normalizeInput packages).2),
          Ev.archive (pl ++ "/" ++ n)], ?_, ?_⟩
      · simp
      · intro e he
        rcases List.mem_cons.mp he with h | h
        · exact Or.inl h
        · rcases List.mem_cons.mp h with h | h
          · exact Or.inr h
          · cases h
  · simp only [h2]
    exact ⟨[], by simp, by intro e he; cases he⟩

/-- In a list split as a prefix with no `p`-event and a suffix with no
`q`-event, every position holding a `p`-event lies strictly after every
position holding a `q`-event. -/
theorem append_index_lt {α : Type} {l1 l2 : List α} {p q : α → Bool} {i j : Nat}
    (h1 : ∀ e ∈ l1, p e = false) (h2 : ∀ e ∈ l2, q e = false)
    (hi : ((l1 ++ l2)[i]?).map p = some true)
    (hj : ((l1 ++ l2)[j]?).map q = some true) : j < i := by
  by_cases hil : i < l1.length
  · exfalso
    rw [List.getElem?_append_left hil] at hi
    rcases hgi : l1[i]? with _ | a
    · rw [hgi] at hi
      cases hi
    · rw [hgi] at hi
      rcases List.getElem?_eq_some_iff.mp hgi with ⟨hlt, hga⟩
      have hmem : a ∈ l1 := hga ▸ List.getElem_mem hlt
      simp [h1 a hmem] at hi
  · push_neg at hil
    by_cases hjl : j < l1.length
    · omega
    · exfalso
      push_neg at hjl
      rw [List.getElem?_append_right hjl] at hj
      rcases hgj : l2[j - l1.length]? with _ | a
      · rw [hgj] at hj
        cases hj
      · rw [hgj] at hj
        rcases List.getElem?_eq_some_iff.mp hgj with ⟨hlt, hga⟩
        have hmem : a ∈ l2 := hga ▸ List.getElem_mem hlt
        simp [h2 a hmem] at hj

/-- Appending a pip section: the script for a present pip list is the script
without a pip list followed by the pip section. -/
theorem scriptContent_pip_split (win : Bool) (pre : Option String)
    (cl : Option (List String)) (ps : List String) :
    scriptContent win pre cl (some ps) =
      scriptContent win pre cl none ++
        pipSection (if win then "::" else "#") (if win then "call " else "") := by
  cases win <;> cases pre <;> cases cl <;>
    simp [scriptContent, String.append_empty]

/-- C1 (counterexample): three artifacts are dispatched and the download of
`u2` raises a network error, yet `generate_offline_install_package` finishes
with no fatal error — the futures holding worker exceptions are never
collected, so nothing re-raises. The siblings' files are written. This
refutes the claim's "ends by raising a fatal error once download results are
collected". -/
theorem c1_counterexample_no_fatal_error :
    runNetFail.err = none ∧
    Ev.fetchFail "u2" "connection reset" ∈ runNetFail.events ∧
    Ev.fetchSave "loc/package/conda/f1" "data-u1" ∈ runNetFail.events ∧
    Ev.fetchSave "loc/package/conda/f3" "data-u3" ∈ runNetFail.events := by decide

/-- C1 (amended): while one dispatched download raises a network error, every
other download whose transport succeeds still runs to completion and writes
its file under `conda/`; and the bundling operation then finishes with no
fatal error at all — the futures returned by `executor.submit` are discarded
on line 49, so no download failure is ever re-raised when the pool is joined. -/
theorem c1_amended_other_downloads_complete_silently (w : World) (cs : List String)
    (pl n : String) (cp eo : Bool) (pre : Option String) (win : Bool)
    (u f body ubad fbad msg : String) (r : RunResult)
    (hr : r = generate_offline_install_package w (PkgInput.dict (some cs) none)
      pl n cp eo pre win)
    (_hbadmem : (ubad, fbad) ∈ buildFetchMap (w.solver (cs.map DepEntry.spec)))
    (_hbad : w.net ubad = Except.error msg)
    (hmem : (u, f) ∈ buildFetchMap (w.solver (cs.map DepEntry.spec)))
    (hok : w.net u = Except.ok body) :
    Ev.fetchSave (pl ++ "/" ++ n ++ "/conda" ++ "/" ++ f) body ∈ r.events ∧
      r.err = none := by
  have hfetch : Ev.fetchSave (pl ++ "/" ++ n ++ "/conda" ++ "/" ++ f) body ∈
      (condaPhaseRun w (some (cs.map DepEntry.spec)) (pl ++ "/" ++ n)).1 := by
    simp only [condaPhaseRun]
    exact List.mem_append_right _ (fetchSave_mem_fetch_packages hmem hok)
  subst hr
  simp only [generate_offline_install_package, normalizeInput, Option.map_some, pipPhaseRun]
  refine ⟨?_, ?_⟩
  · cases cp <;> simp [hfetch]
  · cases cp <;> trivial

/-- C1 (witness): the amended claim at the concrete failing run: the solver
resolves three artifacts, `u2` fails, `u1` is still written and no error is
raised. -/
theorem c1_amended_witness :
    (("u2", "f2") ∈ buildFetchMap (wNetFail.solver (["numpy"].map DepEntry.spec)) ∧
      wNetFail.net "u2" = Except.error "connection reset") ∧
    Ev.fetchSave "loc/package/conda/f1" "data-u1" ∈ runNetFail.events ∧
      runNetFail.err = none :=
  ⟨⟨by decide, by rfl⟩,
    c1_amended_other_downloads_complete_silently wNetFail ["numpy"] "loc" "package"
      false true none false "u1" "f1" "data-u1" "u2" "f2" "connection reset"
      runNetFail rfl (by decide) (by rfl) (by decide) (by rfl)⟩

/-- C2 (code bug): the loop `for p in pip_dependencies: rq.write(p)` writes
the specifiers with no newline, so `["numpy", "flask"]` yields the single
token `numpyflask` rather than one specifier per line. -/
theorem c2_requirements_written_without_newlines :
    requirementsContent ["numpy", "flask"] = "numpyflask" ∧
    requirementsContent ["numpy", "flask"] ≠ "numpy\nflask" := by decide

/-- C3 (counterexample): with a present-but-empty conda list (`{conda: [],
pip: None}`), the pipeline still creates `conda/`, still invokes the solver,
and the replay script still carries a conda install section — refuting
"empty or absent ... skipped entirely". The guard on line 104 is
`is not None`, not truthiness. -/
theorem c3_counterexample_empty_conda_not_skipped :
    Ev.mkdirs "loc/package/conda" ∈ runEmptyConda.events ∧
    Ev.solverRun [] ∈ runEmptyConda.events ∧
    Ev.scriptWrite "loc/package/update.sh"
        "#!/bin/bash\n# install conda packages\nconda install  --offline\n" ∈
      runEmptyConda.events := by decide

/-- C4 (counterexample): descriptor `[{}, "numpy", {pip: ["flask"]}]` has
exactly one mapping with a `pip` key. After `p.pop('pip')` the pip mapping
becomes `{}`, and `packages.remove(p)` deletes the first element equal to
`{}` — the unrelated leading mapping — so the conda list comes out as
`["numpy", {}]`, not the remaining entries `[{}, "numpy"]` in their original
order. -/
theorem c4_counterexample_wrong_entry_removed :
    normalizeDescriptor
        [DepEntry.map [], DepEntry.spec "numpy", DepEntry.map [("pip", ["flask"])]] =
      ([DepEntry.spec "numpy", DepEntry.map []], some ["flask"]) ∧
    ([DepEntry.spec "numpy", DepEntry.map []] : List DepEntry) ≠
      [DepEntry.map [], DepEntry.spec "numpy"] := by decide

/-- C6: if the pip download subprocess exits non-zero, the raised error is the
run's fatal error, and the run writes neither `pip/requirements.txt` nor the
replay script: the `check_call` on line 115 precedes both writes. -/
theorem c6_pip_failure_aborts_before_writes (w : World) (input : PkgInput)
    (pl n : String) (cp eo : Bool) (pre : Option String) (win : Bool)
    (ps : List String) (e : String) (r : RunResult)
    (hr : r = generate_offline_install_package w input pl n cp eo pre win)
    (hps : (normalizeInput input).2 = some ps) (hne : ps ≠ [])
    (hfail : w.pipDl ps = Except.error e) :
    r.err = some e ∧ (∀ s, Ev.reqWrite s ∉ r.events) ∧
      ∀ q s, Ev.scriptWrite q s ∉ r.events := by
  have hemp : ps.isEmpty = false := by
    cases ps with
    | nil => exact absurd rfl hne
    | cons a l => rfl
  have hpp : pipPhaseRun w (normalizeInput input).2 (pl ++ "/" ++ n) =
      ([Ev.mkdirs (pl ++ "/" ++ n ++ "/pip"), Ev.pipRun ps], some e) := by
    rw [hps]
    simp [pipPhaseRun, hemp, hfail]
  subst hr
  simp only [generate_offline_install_package, hpp]
  refine ⟨by trivial, ?_, ?_⟩
  · intro s hmem
    rcases List.mem_append.mp hmem with h1 | h2
    · rcases List.mem_append.mp h1 with h0 | hc
      · simp at h0
      · exact condaPhase_no_reqWrite hc
    · simp at h2
  · intro q s hmem
    rcases List.mem_append.mp hmem with h1 | h2
    · rcases List.mem_append.mp h1 with h0 | hc
      · simp at h0
      · exact condaPhase_no_scriptWrite hc
    · simp at h2

/-- C6 (witness): the concrete failing-pip run: the subprocess error becomes
the run's error and neither write happens. -/
theorem c6_witness :
    (generate_offline_install_package wPipFail (PkgInput.dict none (some ["flask"]))
        "loc" "package" false true none false).err = some "exit status 1" ∧
    Ev.reqWrite "flask" ∉
      (generate_offline_install_package wPipFail (PkgInput.dict none (some ["flask"]))
        "loc" "package" false true none false).events ∧
    Ev.scriptWrite "loc/package/update.sh" "#!/bin/bash\n" ∉
      (generate_offline_install_package wPipFail (PkgInput.dict none (some ["flask"]))
        "loc" "package" false true none false).events := by
  have h := c6_pip_failure_aborts_before_writes wPipFail
    (PkgInput.dict none (some ["flask"])) "loc" "package" false true none false
    ["flask"] "exit status 1" _ rfl rfl (by decide) rfl
  exact ⟨h.1, h.2.1 "flask", h.2.2 "loc/package/update.sh" "#!/bin/bash\n"⟩

/-- C7: on a non-Windows host the replay script text is exactly, in order: the
`#!/bin/bash` shebang line; the preamble followed by a newline when supplied;
when a conda listing was recorded, the `# install conda packages` comment line
followed by `conda install <paths joined by spaces> --offline`; when a pip
list is present, the `# install pip packages` comment line followed by the
offline pip install command. -/
theorem c7_shell_script_structure (pre : Option String)
    (cl : Option (List String)) (pd : Option (List String)) :
    scriptContent false pre cl pd =
      "#!/bin/bash\n" ++
        (match pre with
         | some s => s ++ "\n"
         | none => "") ++
        (match cl with
         | some fs => "# install conda packages\n" ++
             "conda install " ++ String.intercalate " " fs ++ " --offline\n"
         | none => "") ++
        (match pd with
         | some _ => "# install pip packages\n" ++
             "pip install --no-index --find-links=pip/downloaded -r pip/requirements.txt\n"
         | none => "") := by
  cases pre <;> cases cl <;> cases pd <;> rfl

theorem pyDictInsert_of_notMem (d : List (String × String)) (k v : String)
    (h : k ∉ d.map Prod.fst) : pyDictInsert d k v = d ++ [(k, v)] := by
  have hc : (d.map Prod.fst).contains k = false := by
    simpa using h
  have hnc : ¬ ((d.map Prod.fst).contains k = true) := by
    rw [hc]
    simp
  unfold pyDictInsert
  rw [if_neg hnc]

theorem buildFetchMap_go (pkgs : List ResolvedPkg) :
    ∀ acc : List (String × String),
      (∀ p ∈ pkgs, p.url ∉ acc.map Prod.fst) →
      (pkgs.map ResolvedPkg.url).Nodup →
      pkgs.foldl (fun d p => pyDictInsert d p.url p.fn) acc =
        acc ++ pkgs.map (fun p => (p.url, p.fn)) := by
  induction pkgs with
  | nil =>
      intro acc _ _
      simp
  | cons p ps ih =>
      intro acc hdisj hnd
      simp only [List.map_cons, List.nodup_cons] at hnd
      have hdisj2 : ∀ q ∈ ps, q.url ∉ (acc ++ [(p.url, p.fn)]).map Prod.fst := by
        intro q hq
        simp only [List.map_append, List.mem_append]
        rintro (hin | hin)
        · exact hdisj q (List.mem_cons_of_mem _ hq) hin
        · simp at hin
          exact hnd.1 (hin ▸ List.mem_map_of_mem ResolvedPkg.url hq)
      rw [List.foldl_cons,
        pyDictInsert_of_notMem _ _ _ (hdisj p (List.mem_cons_self ..)),
        ih (acc ++ [(p.url, p.fn)]) hdisj2 hnd.2]
      simp

theorem buildFetchMap_of_nodup (pkgs : List ResolvedPkg)
    (h : (pkgs.map ResolvedPkg.url).Nodup) :
    buildFetchMap pkgs = pkgs.map (fun p => (p.url, p.fn)) := by
  have hgo := buildFetchMap_go pkgs [] (by simp) h
  simpa [buildFetchMap] using hgo

/-- C8: for a resolved set with pairwise-distinct URLs (the solver's packages
are unique per diff), the fetch mapping holds exactly one entry per resolved
package — its URL mapped to its file name, in order — and each package's file
name appears as `conda/<file_name>` in the recorded listing. -/
theorem c8_fetch_map_exact (pkgs : List ResolvedPkg)
    (h : (pkgs.map ResolvedPkg.url).Nodup) :
    buildFetchMap pkgs = pkgs.map (fun p => (p.url, p.fn)) ∧
    condaPackageListing pkgs = pkgs.map (fun p => "conda/" ++ p.fn) ∧
    ∀ p ∈ pkgs, ("conda/" ++ p.fn) ∈ condaPackageListing pkgs := by
  have h1 := buildFetchMap_of_nodup pkgs h
  have h2 : condaPackageListing pkgs = pkgs.map (fun p => "conda/" ++ p.fn) := by
    rw [condaPackageListing, h1, List.map_map]
    rfl
  refine ⟨h1, h2, ?_⟩
  intro p hp
  rw [h2]
  exact List.mem_map_of_mem _ hp

/-- C8 (witness): the two-package concrete instance. -/
theorem c8_witness :
    (pkgsPair.map ResolvedPkg.url).Nodup ∧
    buildFetchMap pkgsPair = [("u1", "f1"), ("u2", "f2")] ∧
    ("conda/" ++ "f2") ∈ condaPackageListing pkgsPair :=
  ⟨by decide, (c8_fetch_map_exact pkgsPair (by decide)).1,
    (c8_fetch_map_exact pkgsPair (by decide)).2.2 ⟨"u2", "f2"⟩ (by decide)⟩

/-- C3 (amended): only when the conda dependency list is absent (`None`, i.e.
a mapping input without a `conda` key) is the Conda Resolver Adapter skipped
together with its downstream effects: no solver invocation, no `conda/`
directory (every directory created is the install root or `pip/`), no conda
artifact fetch, and a replay script with no conda section. -/
theorem c3_amended_absent_conda_skips_all (w : World) (p : Option (List String))
    (pl n : String) (cp eo : Bool) (pre : Option String) (win : Bool) (r : RunResult)
    (hr : r = generate_offline_install_package w (PkgInput.dict none p) pl n cp eo pre win) :
    (∀ ds, Ev.solverRun ds ∉ r.events) ∧
    (∀ path body, Ev.fetchSave path body ∉ r.events) ∧
    (∀ q, Ev.mkdirs q ∈ r.events → q = pl ++ "/" ++ n ∨ q = pl ++ "/" ++ n ++ "/pip") ∧
    (∀ path s, Ev.scriptWrite path s ∈ r.events → s = scriptContent win pre none p) := by
  obtain ⟨tail, hsplit, htail⟩ :=
    generate_structure w (PkgInput.dict none p) pl n cp eo pre win
  have hnorm1 : (normalizeInput (PkgInput.dict none p)).1 = none := rfl
  have hnorm2 : (normalizeInput (PkgInput.dict none p)).2 = p := rfl
  rw [hnorm1, hnorm2] at hsplit htail
  have hcp1 : (condaPhaseRun w none (pl ++ "/" ++ n)).1 = ([] : List Ev) := rfl
  have hcp2 : (condaPhaseRun w none (pl ++ "/" ++ n)).2 = none := rfl
  rw [hcp1] at hsplit
  rw [hcp2] at htail
  subst hr
  have hshape : ∀ e : Ev,
      e ∈ (generate_offline_install_package w (PkgInput.dict none p) pl n cp eo
        pre win).events →
      e = Ev.mkdirs (pl ++ "/" ++ n) ∨
        e ∈ (pipPhaseRun w p (pl ++ "/" ++ n)).1 ∨ e ∈ tail := by
    intro e he
    rw [hsplit] at he
    rcases List.mem_append.mp he with h1 | h2
    · rcases List.mem_append.mp h1 with h0 | hp
      · simp at h0
        exact Or.inl h0
      · exact Or.inr (Or.inl hp)
    · exact Or.inr (Or.inr h2)
  refine ⟨?_, ?_, ?_, ?_⟩
  · intro ds hmem
    rcases hshape _ hmem with h | h | h
    · exact Ev.noConfusion h
    · exact pipPhase_no_solverRun h
    · rcases htail _ h with h | h <;> exact Ev.noConfusion h
  · intro path body hmem
    rcases hshape _ hmem with h | h | h
    · exact Ev.noConfusion h
    · exact pipPhase_no_fetchSave h
    · rcases htail _ h with h | h <;> exact Ev.noConfusion h
  · intro q hmem
    rcases hshape _ hmem with h | h | h
    · exact Or.inl (Ev.mkdirs.injEq .. ▸ h)
    · exact Or.inr (pipPhase_mkdirs_eq h)
    · rcases htail _ h with h | h <;> exact Ev.noConfusion h
  · intro path s hmem
    rcases hshape _ hmem with h | h | h
    · exact Ev.noConfusion h
    · exact absurd h pipPhase_no_scriptWrite
    · rcases htail _ h with h | h
      · have := Ev.scriptWrite.injEq .. ▸ h
        exact this.2
      · exact Ev.noConfusion h

/-- C3 (witness): the amended claim at a concrete run: a mapping input with no
conda key and pip list `["flask"]` never invokes the solver. -/
theorem c3_amended_witness :
    Ev.solverRun [] ∉
      (generate_offline_install_package wQuiet (PkgInput.dict none (some ["flask"]))
        "loc" "package" false true none false).events :=
  (c3_amended_absent_conda_skips_all wQuiet (some ["flask"]) "loc" "package"
    false true none false _ rfl).1 []

/-- C9: the replay script is written only after both artifact phases: any
trace position holding a script write comes strictly after every position
holding a conda download completion (successful or failed) or the pip
download step. -/
theorem c9_script_after_artifact_phases (w : World) (packages : PkgInput)
    (pl n : String) (cp eo : Bool) (pre : Option String) (win : Bool)
    (i j : Nat) (r : RunResult)
    (hr : r = generate_offline_install_package w packages pl n cp eo pre win)
    (hi : (r.events[i]?).map isScriptEv = some true)
    (hj : (r.events[j]?).map isArtifactEv = some true) : j < i := by
  subst hr
  obtain ⟨tail, hsplit, htail⟩ := generate_structure w packages pl n cp eo pre win
  rw [hsplit] at hi hj
  refine append_index_lt ?_ ?_ hi hj
  · intro e he
    rcases List.mem_append.mp he with h1 | h2
    · rcases List.mem_append.mp h1 with h0 | hc
      · simp at h0
        subst h0
        rfl
      · exact condaPhase_not_script e hc
    · exact pipPhase_not_script e h2
  · intro e he
    rcases htail e he with h | h <;> subst h <;> rfl

/-- C9 (witness): in the concrete two-phase run the script write sits at index
9, after the pip download step at index 7. -/
theorem c9_witness :
    (runBothPhases.events[9]?).map isScriptEv = some true ∧
    (runBothPhases.events[7]?).map isArtifactEv = some true ∧ 7 < 9 :=
  ⟨by decide, by decide,
    c9_script_after_artifact_phases wNetFail
      (PkgInput.dict (some ["numpy"]) (some ["flask"])) "loc" "package" false true
      none false 9 7 runBothPhases rfl (by decide) (by decide)⟩

/-- C10: a present-but-empty pip list skips all pip artifact work — no `pip/`
directory (every directory created is the install root or `conda/`), no pip
download subprocess, no `requirements.txt` write — yet the replay script still
ends with the pip install section, because line 112 tests truthiness while
line 138 tests `is not None`. -/
theorem c10_empty_pip_skips_artifacts_keeps_script (w : World)
    (c : Option (List String)) (pl n : String) (cp eo : Bool)
    (pre : Option String) (win : Bool) (r : RunResult)
    (hr : r = generate_offline_install_package w (PkgInput.dict c (some [])) pl n cp eo pre win) :
    (∀ ps, Ev.pipRun ps ∉ r.events) ∧
    (∀ s, Ev.reqWrite s ∉ r.events) ∧
    (∀ q, Ev.mkdirs q ∈ r.events → q = pl ++ "/" ++ n ∨ q = pl ++ "/" ++ n ++ "/conda") ∧
    (∀ path s, Ev.scriptWrite path s ∈ r.events →
      ∃ cl, s = scriptContent win pre cl (some []) ∧
        s = scriptContent win pre cl none ++
          pipSection (if win then "::" else "#") (if win then "call " else "")) := by
  obtain ⟨tail, hsplit, htail⟩ :=
    generate_structure w (PkgInput.dict c (some [])) pl n cp eo pre win
  have hnorm2 : (normalizeInput (PkgInput.dict c (some []))).2 = some [] := rfl
  rw [hnorm2] at hsplit htail
  have hpp1 : (pipPhaseRun w (some []) (pl ++ "/" ++ n)).1 = ([] : List Ev) := rfl
  rw [hpp1] at hsplit
  subst hr
  have hshape : ∀ e : Ev,
      e ∈ (generate_offline_install_package w (PkgInput.dict c (some [])) pl n cp eo
        pre win).events →
      e = Ev.mkdirs (pl ++ "/" ++ n) ∨
        e ∈ (condaPhaseRun w (normalizeInput (PkgInput.dict c (some []))).1
          (pl ++ "/" ++ n)).1 ∨ e ∈ tail := by
    intro e he
    rw [hsplit] at he
    rcases List.mem_append.mp he with h1 | h2
    · rcases List.mem_append.mp h1 with h0 | hp
      · rcases List.mem_append.mp h0 with ha | hb
        · simp at ha
          exact Or.inl ha
        · exact Or.inr (Or.inl hb)
      · cases hp
    · exact Or.inr (Or.inr h2)
  refine ⟨?_, ?_, ?_, ?_⟩
  · intro ps hmem
    rcases hshape _ hmem with h | h | h
    · exact Ev.noConfusion h
    · exact condaPhase_no_pipRun h
    · rcases htail _ h with h | h <;> exact Ev.noConfusion h
  · intro s hmem
    rcases hshape _ hmem with h | h | h
    · exact Ev.noConfusion h
    · exact condaPhase_no_reqWrite h
    · rcases htail _ h with h | h <;> exact Ev.noConfusion h
  · intro q hmem
    rcases hshape _ hmem with h | h | h
    · exact Or.inl (Ev.mkdirs.injEq .. ▸ h)
    · exact Or.inr (condaPhase_mkdirs_eq h)
    · rcases htail _ h with h | h <;> exact Ev.noConfusion h
  · intro path s hmem
    rcases hshape _ hmem with h | h | h
    · exact Ev.noConfusion h
    · exact absurd h condaPhase_no_scriptWrite
    · rcases htail _ h with h | h
      · have hs := (Ev.scriptWrite.injEq .. ▸ h).2
        exact ⟨(condaPhaseRun w (normalizeInput (PkgInput.dict c (some []))).1
            (pl ++ "/" ++ n)).2, hs, hs.trans (scriptContent_pip_split ..)⟩
      · exact Ev.noConfusion h

/-- C10 (witness): the concrete empty-pip run never invokes the pip download
subprocess and never writes a requirements file. -/
theorem c10_witness :
    Ev.pipRun ["flask"] ∉ runEmptyPip.events ∧ Ev.reqWrite "" ∉ runEmptyPip.events :=
  ⟨(c10_empty_pip_skips_artifacts_keeps_script wQuiet (some ["numpy"]) "loc" "package"
      false true none false runEmptyPip rfl).1 ["flask"],
    (c10_empty_pip_skips_artifacts_keeps_script wQuiet (some ["numpy"]) "loc" "package"
      false true none false runEmptyPip rfl).2.1 ""⟩

theorem dictLookup_of_mem_nodup {m : List (String × List String)} {k : String}
    {v : List String} (hnd : (m.map Prod.fst).Nodup) (hmem : (k, v) ∈ m) :
    dictLookup m k = some v := by
  induction m with
  | nil => cases hmem
  | cons kv rest ih =>
      simp only [List.map_cons, List.nodup_cons] at hnd
      rcases List.mem_cons.mp hmem with h | h
      · rw [← h]
        simp [dictLookup]
      · have hk : k ∈ rest.map Prod.fst := List.mem_map_of_mem Prod.fst h
        have hne : (kv.1 == k) = false := by
          by_contra hb
          rw [Bool.not_eq_false, beq_iff_eq] at hb
          exact hnd.1 (hb ▸ hk)
        rw [dictLookup, if_neg (by rw [hne]; simp)]
        exact ih hnd.2 h

theorem dictEq_self {m : List (String × List String)}
    (hnd : (m.map Prod.fst).Nodup) : dictEq m m = true := by
  unfold dictEq
  rw [Bool.and_eq_true]
  constructor <;>
  · rw [List.all_eq_true]
    intro kv hkv
    rw [dictLookup_of_mem_nodup hnd (by simpa using hkv)]
    simp

theorem eraseKey_keys_nodup {m : List (String × List String)} {k : String}
    (hnd : (m.map Prod.fst).Nodup) : ((eraseKey m k).map Prod.fst).Nodup :=
  List.Nodup.sublist (List.Sublist.map _ (List.filter_sublist m)) hnd

theorem pipHit_eq_none {e : DepEntry} (h : isPipMap e = false) : pipHit e = none := by
  cases e with
  | spec s => rfl
  | map m =>
      rcases hlk : dictLookup m "pip" with _ | pl
      · simp [pipHit, hlk]
      · exfalso
        simp [isPipMap, hlk] at h

theorem normCore_none {deps : List DepEntry}
    (h : ∀ e ∈ deps, isPipMap e = false) : normCore deps = none := by
  induction deps with
  | nil => rfl
  | cons e es ih =>
      rw [normCore, ih (fun x hx => h x (List.mem_cons_of_mem _ hx)),
        pipHit_eq_none (h e (List.mem_cons_self ..))]
      rfl

theorem normCore_found {l1 l2 : List DepEntry} {m : List (String × List String)}
    {pl : List String}
    (h1 : ∀ e ∈ l1, isPipMap e = false) (h2 : ∀ e ∈ l2, isPipMap e = false)
    (hp : dictLookup m "pip" = some pl) :
    normCore (l1 ++ DepEntry.map m :: l2) =
      some (l1 ++ DepEntry.map (eraseKey m "pip") :: l2, eraseKey m "pip", pl) := by
  induction l1 with
  | nil =>
      simp only [List.nil_append]
      rw [normCore, normCore_none h2]
      simp [pipHit, hp, Option.orElse]
  | cons e es ih =>
      rw [List.cons_append, normCore,
        ih (fun x hx => h1 x (List.mem_cons_of_mem _ hx))]
      rfl

theorem removeFirst_append {x : DepEntry} {l1 l2 : List DepEntry}
    (h1 : ∀ e ∈ l1, entryEq e x = false) (hx : entryEq x x = true) :
    removeFirst x (l1 ++ x :: l2) = l1 ++ l2 := by
  induction l1 with
  | nil =>
      simp only [List.nil_append]
      rw [removeFirst, if_pos (by rw [hx])]
  | cons e es ih =>
      rw [List.cons_append, removeFirst,
        if_neg (by rw [h1 e (List.mem_cons_self ..)]; simp),
        ih (fun y hy => h1 y (List.mem_cons_of_mem _ hy))]
      rfl

/-- C4 (amended): for a dependency list of the form `l1 ++ [{.., pip: pl, ..}]
++ l2` where the framing entries carry no `pip` key and — as the in-place
`pop` plus `remove` of lines 94-95 require — no entry of `l1` is equal (in
Python's sense) to the pip mapping with its `pip` key removed, the Input
Normalizer extracts exactly `pl` as the pip list and the remaining entries, in
their original order, as the conda list. In particular this covers every
descriptor whose other entries are bare specifier strings, at any pip-mapping
position. -/
theorem c4_amended_normalizer_extracts_pip (l1 l2 : List DepEntry)
    (m : List (String × List String)) (pl : List String)
    (hnd : (m.map Prod.fst).Nodup)
    (hp : dictLookup m "pip" = some pl)
    (h1 : ∀ e ∈ l1, isPipMap e = false)
    (h2 : ∀ e ∈ l2, isPipMap e = false)
    (h4 : ∀ e ∈ l1, entryEq e (DepEntry.map (eraseKey m "pip")) = false) :
    normalizeDescriptor (l1 ++ DepEntry.map m :: l2) = (l1 ++ l2, some pl) := by
  unfold normalizeDescriptor
  rw [normCore_found h1 h2 hp]
  show (removeFirst (DepEntry.map (eraseKey m "pip"))
      (l1 ++ DepEntry.map (eraseKey m "pip") :: l2), some pl) = (l1 ++ l2, some pl)
  rw [removeFirst_append h4 (by
    show dictEq (eraseKey m "pip") (eraseKey m "pip") = true
    exact dictEq_self (eraseKey_keys_nodup hnd))]

/-- C4 (witness): Scenario B — descriptor `["numpy", {pip: ["flask"]}]` gives
conda `["numpy"]` and pip `["flask"]`. -/
theorem c4_amended_witness :
    normalizeDescriptor [DepEntry.spec "numpy", DepEntry.map [("pip", ["flask"])]] =
      ([DepEntry.spec "numpy"], some ["flask"]) :=
  c4_amended_normalizer_extracts_pip [DepEntry.spec "numpy"] [] [("pip", ["flask"])]
    ["flask"] (by decide) (by decide) (by decide) (by decide) (by decide)

/-- C5 (code bug): line 62 compares `info['active_prefix']` to the string
`'null'`, but `json.loads` decodes a JSON `null` to `None`, which never
equals `'null'`. With no active environment the selection keeps the null
active value instead of falling back to `conda_prefix`. -/
theorem c5_null_active_env_not_falling_back :
    selectEnvDir JVal.jnull (JVal.jstr "/opt/conda") = JVal.jnull ∧
    selectEnvDir JVal.jnull (JVal.jstr "/opt/conda") ≠ JVal.jstr "/opt/conda" := by decide

end CondaPackageGatherer
